import Mathlib

open scoped List

/-!
Shallow embedding of `card_game.py`: a two-player card game over a standard
52-card deck.  Each definition mirrors one Python function or method of the
source module; theorems below settle the specification claims.

Modelling conventions:
* Python integers are `Int`.
* The dictionary `Card.suit_values` has exactly the four suit-name strings as
  keys; a constructed card's suit is therefore one of four values, modelled by
  the inductive type `Suit`.  A raw string lookup in the dictionary is
  `suitLookup`, returning `none` where Python raises `KeyError`.
* `random.shuffle` reorders the deck arbitrarily; theorems quantify over any
  permutation of the freshly built deck.
* `list.sort(key=...)` is a stable sort by the key's non-strict order; it is
  modelled by `List.mergeSort`, which is stable and sorts by the same boolean
  relation, hence produces the same output list.
* Raising an exception (`ValueError` in `CardGame.__init__`, `KeyError` in
  `Card.__init__`, `IndexError` in `list.pop(0)`) is modelled by `none`.
-/

/-- The four card suits, i.e. the keys of the `Card.suit_values` dictionary
(equivalently the entries of `Deck.suits`). -/
inductive Suit where
  | Spades
  | Diamonds
  | Hearts
  | Clubs
deriving DecidableEq, Repr

/-- The dictionary `Card.suit_values = \x7b"Spades": 1, "Diamonds": 2,
"Hearts": 3, "Clubs": 4\x7d`, read at a key known to be present. -/
def suit_values : Suit → Int
  | .Spades => 1
  | .Diamonds => 2
  | .Hearts => 3
  | .Clubs => 4

/-- Lookup of an arbitrary string key in the `Card.suit_values` dictionary:
`none` models a `KeyError`. -/
def suitLookup (s : String) : Option Suit :=
  if s = "Spades" then some .Spades
  else if s = "Diamonds" then some .Diamonds
  else if s = "Hearts" then some .Hearts
  else if s = "Clubs" then some .Clubs
  else none

/-- A playing card: fields `rank`, `suit` and `suit_sort` as set by
`Card.__init__` (`self.suit_sort = Card.suit_values[self.suit]`). -/
structure Card where
  rank : Int
  suit : Suit
  suit_sort : Int
deriving DecidableEq, Repr

/-- `Card.__init__(rank, suit)` with a raw string suit: stores rank unchecked,
then evaluates `Card.suit_values[suit]`, which raises `KeyError` (`none`) when
the suit is not one of the four dictionary keys.  No check of any kind is made
on `rank`. -/
def cardInit (rank : Int) (suit : String) : Option Card :=
  (suitLookup suit).map fun st => { rank := rank, suit := st, suit_sort := suit_values st }

/-- `Card(rank, suit)` for a suit already known to be a dictionary key, as in
`Deck.__init__`; sets `suit_sort` from the dictionary. -/
def mkCard (rank : Int) (suit : Suit) : Card :=
  { rank := rank, suit := suit, suit_sort := suit_values suit }

/-- The property `Card.card_value`: `self.rank * self.suit_values[self.suit]`. -/
def card_value (c : Card) : Int :=
  c.rank * suit_values c.suit

/-- `Card.__gt__`: same suit compares by rank, different suits compare by the
suit's dictionary value, the rank being ignored. -/
def cardGt (self other : Card) : Bool :=
  if self.suit = other.suit then
    decide (self.rank > other.rank)
  else
    decide (suit_values self.suit > suit_values other.suit)

/-- The class attribute `Deck.suits`, in its fixed iteration order. -/
def deckSuits : List Suit :=
  [.Spades, .Diamonds, .Hearts, .Clubs]

/-- The rank loop `range(2, 15)` of `Deck.__init__`, as integers. -/
def rankValues : List Int :=
  (List.range' 2 13).map fun n => (n : Int)

/-- `Deck.__init__`: for each suit in `Deck.suits` and each rank in
`range(2, 15)`, append `Card(rank, suit)`.  The result is the list
`self.the_deck`. -/
def deckInit : List Card :=
  deckSuits.flatMap fun suit => rankValues.map fun rank => mkCard rank suit

/-- The comparison used by the first sorting pass of `Deck.sort()`:
`key=attrgetter('rank')`. -/
def leRank (a b : Card) : Bool :=
  decide (a.rank ≤ b.rank)

/-- The comparison used by the second sorting pass of `Deck.sort()`:
`key=attrgetter('suit_sort')`. -/
def leSuitSort (a b : Card) : Bool :=
  decide (a.suit_sort ≤ b.suit_sort)

/-- `Deck.sort()`: two sequential in-place stable sorts, first by `rank`,
then by `suit_sort`.  Python's `list.sort` is stable, as is `mergeSort`;
a stable sort by a given non-strict key order is a unique function of its
input, so the model computes the same list as the source. -/
def deckSort (l : List Card) : List Card :=
  (l.mergeSort leRank).mergeSort leSuitSort

/-- `Deck.deal()`: pop and return the front card, or `None` on an empty deck;
returns the dealt card together with the remaining deck. -/
def deal (l : List Card) : Option Card × List Card :=
  match l with
  | [] => (none, [])
  | c :: rest => (some c, rest)

/-- A game player: fields `name`, `cards` and `player_score` of class
`Player`. -/
structure Player where
  name : String
  cards : List Card
  player_score : Int
deriving DecidableEq, Repr, Inhabited

/-- `Player.__init__(name)`: name rendered as `"Player " + str(name)`, empty
hand, score zero. -/
def playerInit (name : Int) : Player :=
  { name := "Player " ++ toString name, cards := [], player_score := 0 }

/-- `Player.add_card(new_card)`: append the card to the hand and add its
`card_value` to the running score. -/
def add_card (p : Player) (new_card : Card) : Player :=
  { p with
    cards := p.cards ++ [new_card],
    player_score := p.player_score + card_value new_card }

/-- The property `Player.score`. -/
def score (p : Player) : Int :=
  p.player_score

/-- `Player.__gt__`: strict comparison of the two accumulated scores. -/
def playerGt (self other : Player) : Bool :=
  decide (self.player_score > other.player_score)

/-- A game: fields `players`, `num_players`, `sort_deck` and
`cards_per_player` of class `CardGame`. -/
structure CardGame where
  players : List Player
  num_players : Int
  sort_deck : Bool
  cards_per_player : Int
deriving DecidableEq, Repr

/-- The class attribute `CardGame.GAME_PLAYERS_REQUIRED`. -/
def GAME_PLAYERS_REQUIRED : Int := 2

/-- The Python loop `range(a, b)` over integers. -/
def intRange (a b : Int) : List Int :=
  (List.range (b - a).toNat).map fun i => a + (i : Int)

/-- `CardGame.__init__(num_players, sort_deck, cards_per_player)`: raises
`ValueError` (`none`) when `num_players != GAME_PLAYERS_REQUIRED`; otherwise
instantiates `Player(i)` for `i in range(1, num_players + 1)`. -/
def cardGameInit (num_players : Int) (sort_deck : Bool) (cards_per_player : Int) :
    Option CardGame :=
  if num_players ≠ GAME_PLAYERS_REQUIRED then
    none
  else
    some
      { players := (intRange 1 (num_players + 1)).map playerInit,
        num_players := num_players,
        sort_deck := sort_deck,
        cards_per_player := cards_per_player }

/-- The dealing loop of `CardGame.play_card_game`: while cards remain to be
dealt, pop the top card (breaking when the deck is exhausted), give it to the
current player and advance the player index modulo the player count.  The
loop counter `cards_to_deal` is the first argument. -/
def dealLoop : Nat → List Player → Nat → List Card → Nat → List Player × List Card
  | 0, players, _, deckList, _ => (players, deckList)
  | _ + 1, players, _, [], _ => (players, [])
  | fuel + 1, players, current, c :: rest, np =>
      dealLoop fuel (players.set current (add_card players[current]! c))
        ((current + 1) % np) rest np

/-- `CardGame.play_card_game()`: build a deck, shuffle it (the caller passes
the shuffled arrangement `shuffled`), sort it when `sort_deck` is set, then
deal `num_players * cards_per_player` cards round-robin starting at player
index 0.  `toNat` reflects that the `while cards_to_deal > 0` loop runs zero
times for a non-positive product. -/
def play_card_game (g : CardGame) (shuffled : List Card) : CardGame :=
  { g with
    players :=
      (dealLoop (g.num_players * g.cards_per_player).toNat g.players 0
        (if g.sort_deck then deckSort shuffled else shuffled)
        g.num_players.toNat).1 }

/-- The `while self.players` loop of `CardGame.show_winner`: pop players one
by one, replacing the current winner whenever a popped player's score strictly
exceeds the winner's. -/
def showWinnerLoop (winner : Player) : List Player → Player
  | [] => winner
  | p :: rest => showWinnerLoop (if playerGt p winner then p else winner) rest

/-- `CardGame.show_winner()`: pops the first player (raising `IndexError`,
i.e. `none`, were the list empty), scans the remaining players with the loop
above, and returns the winning player's name.  Every player has been popped
from `self.players` afterwards, so the state it leaves behind has an empty
players list. -/
def show_winner (g : CardGame) : Option (String × CardGame) :=
  match g.players with
  | [] => none
  | first :: rest => some ((showWinnerLoop first rest).name, { g with players := [] })

/-! ### Properties of the two-pass stable sort -/

/-- Transitivity of the rank comparison. -/
theorem leRank_trans : ∀ a b c : Card, leRank a b → leRank b c → leRank a c := by
  intro a b c hab hbc
  simp only [leRank, decide_eq_true_eq] at hab hbc ⊢
  omega

/-- Totality of the rank comparison. -/
theorem leRank_total : ∀ a b : Card, leRank a b || leRank b a := by
  intro a b
  simp only [leRank, Bool.or_eq_true, decide_eq_true_eq]
  omega

/-- Transitivity of the suit-value comparison. -/
theorem leSuitSort_trans : ∀ a b c : Card, leSuitSort a b → leSuitSort b c → leSuitSort a c := by
  intro a b c hab hbc
  simp only [leSuitSort, decide_eq_true_eq] at hab hbc ⊢
  omega

/-- Totality of the suit-value comparison. -/
theorem leSuitSort_total : ∀ a b : Card, leSuitSort a b || leSuitSort b a := by
  intro a b
  simp only [leSuitSort, Bool.or_eq_true, decide_eq_true_eq]
  omega

/-- The documented final order of `Deck.sort()`: suit value ascending, rank
ascending within a suit value group. -/
def lexLe (a b : Card) : Prop :=
  a.suit_sort < b.suit_sort ∨ (a.suit_sort = b.suit_sort ∧ a.rank ≤ b.rank)

instance (a b : Card) : Decidable (lexLe a b) := by
  unfold lexLe
  infer_instance

/-- In a duplicate-free list, two elements can appear in only one relative
order. -/
theorem pair_sublist_antisym {α : Type _} {a b : α} :
    ∀ {l : List α}, l.Nodup → [a, b] <+ l → [b, a] <+ l → a = b := by
  intro l
  induction l with
  | nil =>
    intro _ hab
    exact absurd hab (by simp)
  | cons x t ih =>
    intro hnd hab hba
    rw [List.nodup_cons] at hnd
    cases hab with
    | cons _ hab =>
      cases hba with
      | cons _ hba => exact ih hnd.2 hab hba
      | cons₂ hba => exact absurd (hab.subset (by simp)) hnd.1
    | cons₂ hab =>
      cases hba with
      | cons _ hba => exact absurd (hba.subset (by simp)) hnd.1
      | cons₂ hba => rfl

/-- Any two distinct members of a duplicate-free list occur in some relative
order. -/
theorem pair_sublist_of_mem {α : Type _} {a b : α} :
    ∀ {l : List α}, a ∈ l → b ∈ l → a ≠ b → [a, b] <+ l ∨ [b, a] <+ l := by
  intro l
  induction l with
  | nil => intro ha; exact absurd ha (by simp)
  | cons x t ih =>
    intro ha hb hne
    rcases List.mem_cons.mp ha with rfl | hat
    · have hbt : b ∈ t := by
        rcases List.mem_cons.mp hb with rfl | hbt
        · exact absurd rfl hne
        · exact hbt
      exact Or.inl ((List.singleton_sublist.mpr hbt).cons₂ a)
    · rcases List.mem_cons.mp hb with rfl | hbt
      · exact Or.inr ((List.singleton_sublist.mpr hat).cons₂ b)
      · rcases ih hat hbt hne with h | h
        · exact Or.inl (h.cons x)
        · exact Or.inr (h.cons x)

/-- After the two stable sorting passes of `Deck.sort()`, a duplicate-free
deck is ordered by suit value and, within equal suit values, by rank: the
second pass orders suit values and, being stable, preserves the rank order
established by the first pass inside each suit-value group. -/
theorem deckSort_pairwise_lexLe (l : List Card) (hnd : l.Nodup) :
    (deckSort l).Pairwise lexLe := by
  have hperm1 : l.mergeSort leRank ~ l := List.mergeSort_perm l leRank
  have hnd1 : (l.mergeSort leRank).Nodup := hperm1.nodup_iff.mpr hnd
  have hperm2 : deckSort l ~ l.mergeSort leRank :=
    List.mergeSort_perm (l.mergeSort leRank) leSuitSort
  have hnd2 : (deckSort l).Nodup := hperm2.nodup_iff.mpr hnd1
  have hs1 : (l.mergeSort leRank).Pairwise (leRank · ·) :=
    List.sorted_mergeSort leRank_trans leRank_total l
  have hs2 : (deckSort l).Pairwise (leSuitSort · ·) :=
    List.sorted_mergeSort leSuitSort_trans leSuitSort_total (l.mergeSort leRank)
  rw [List.pairwise_iff_forall_sublist]
  intro a b hsub
  have hsuit : a.suit_sort ≤ b.suit_sort := by
    have h := List.pairwise_iff_forall_sublist.mp hs2 hsub
    simpa [leSuitSort] using h
  rcases lt_or_eq_of_le hsuit with hlt | heq
  · exact Or.inl hlt
  · by_cases hab : a = b
    · subst hab
      exact Or.inr ⟨heq, le_refl _⟩
    · have ha1 : a ∈ l.mergeSort leRank := hperm2.subset (hsub.subset (by simp))
      have hb1 : b ∈ l.mergeSort leRank := hperm2.subset (hsub.subset (by simp))
      rcases pair_sublist_of_mem ha1 hb1 hab with h1 | h1
      · have h := List.pairwise_iff_forall_sublist.mp hs1 h1
        refine Or.inr ⟨heq, ?_⟩
        simpa [leRank] using h
      · have hba : [b, a] <+ deckSort l :=
          List.pair_sublist_mergeSort leSuitSort_trans leSuitSort_total
            (by simp [leSuitSort, heq]) h1
        exact absurd (pair_sublist_antisym hnd2 hsub hba) hab

/-- A freshly built deck has no duplicate cards. -/
theorem deckInit_nodup : deckInit.Nodup := by decide

/-- A freshly built deck is already in suit-value-major, rank-minor ascending
order: `Deck.suits` iterates the suits in ascending dictionary value and the
rank loop ascends. -/
theorem deckInit_pairwise_lexLe : deckInit.Pairwise lexLe := by decide

/-- On cards of the fresh deck, the sort key `(suit_sort, rank)` determines
the card. -/
theorem deckInit_key_inj :
    ∀ a ∈ deckInit, ∀ b ∈ deckInit,
      a.suit_sort = b.suit_sort → a.rank = b.rank → a = b := by decide

/-- The key order `lexLe` is antisymmetric on members of the fresh deck. -/
theorem deckInit_lexLe_antisym :
    ∀ a ∈ deckInit, ∀ b ∈ deckInit, lexLe a b → lexLe b a → a = b := by
  intro a ha b hb h1 h2
  have hk : a.suit_sort = b.suit_sort ∧ a.rank = b.rank := by
    rcases h1 with h1 | ⟨h1, h1r⟩ <;> rcases h2 with h2 | ⟨h2, h2r⟩ <;>
      exact ⟨by omega, by omega⟩
  exact deckInit_key_inj a ha b hb hk.1 hk.2

/-- Sorting any arrangement of the 52 fresh-deck cards with `Deck.sort()`
yields the deck in construction order: the output is a permutation of the
fresh deck sorted by the antisymmetric-on-members key order, and the fresh
deck is the unique such list. -/
theorem deckSort_eq_of_perm (l : List Card) (h : l ~ deckInit) :
    deckSort l = deckInit := by
  have hnd : l.Nodup := h.nodup_iff.mpr deckInit_nodup
  have hpw : (deckSort l).Pairwise lexLe := deckSort_pairwise_lexLe l hnd
  have hperm : deckSort l ~ deckInit :=
    ((List.mergeSort_perm (l.mergeSort leRank) leSuitSort).trans
      (List.mergeSort_perm l leRank)).trans h
  exact List.Perm.eq_of_sorted
    (fun a b ha hb => deckInit_lexLe_antisym a (hperm.subset ha) b hb)
    hpw deckInit_pairwise_lexLe hperm

/-! ### Claim theorems -/

/-- C2 counterexample: `Card(14, "Spades") > Card(14, "Clubs")` evaluates to
`false`, not `true` as claimed: the suits differ and Spades has dictionary
value 1, Clubs 4, so the comparison is `1 > 4`. -/
theorem C2_claim_counterexample :
    cardGt (mkCard 14 .Spades) (mkCard 14 .Clubs) = false := by decide

/-- C2 (amended): with suits in `Card(14, "Spades") > Card(14, "Clubs")`, the
comparison evaluates to `false`; the comparison in the opposite direction,
`Card(14, "Clubs") > Card(14, "Spades")`, evaluates to `true`. -/
theorem C2_gt_direction :
    cardGt (mkCard 14 .Spades) (mkCard 14 .Clubs) = false ∧
    cardGt (mkCard 14 .Clubs) (mkCard 14 .Spades) = true := by decide

/-- C3 counterexample: constructing a card whose suit is not one of the four
dictionary keys fails (`Card.__init__` evaluates `Card.suit_values["Foo"]`,
raising `KeyError`), so construction does not succeed for every suit. -/
theorem C3_claim_counterexample :
    cardInit 5 "Foo" = none ∧ ¬ (∀ (r : Int) (s : String), (cardInit r s).isSome) := by
  refine ⟨rfl, fun h => ?_⟩
  have := h 5 "Foo"
  simp [cardInit, suitLookup] at this

/-- C3 (amended): `Card.__init__` performs no validation on rank, so any rank
(including ranks outside 2 to 14) is accepted; construction succeeds exactly
when the suit argument is one of the four dictionary keys, and fails with a
`KeyError` otherwise. -/
theorem C3_cardInit_domain (rank : Int) (suit : String) :
    (cardInit rank suit).isSome = true ↔
      (suit = "Spades" ∨ suit = "Diamonds" ∨ suit = "Hearts" ∨ suit = "Clubs") := by
  simp only [cardInit, suitLookup]
  split_ifs with h1 h2 h3 h4 <;> simp_all

/-- C5: for cards with legal ranks, the greater-than comparison compares rank
when the suits coincide and compares the suits' dictionary values, ignoring
rank, when they differ; in particular `Card(4, "Hearts") > Card(5, "Diamonds")`
is true. -/
theorem C5_gt_spec (c1 c2 : Card)
    (_h1 : 2 ≤ c1.rank ∧ c1.rank ≤ 14) (_h2 : 2 ≤ c2.rank ∧ c2.rank ≤ 14) :
    (c1.suit = c2.suit → (cardGt c1 c2 = true ↔ c1.rank > c2.rank)) ∧
    (c1.suit ≠ c2.suit →
      (cardGt c1 c2 = true ↔ suit_values c1.suit > suit_values c2.suit)) ∧
    cardGt (mkCard 4 .Hearts) (mkCard 5 .Diamonds) = true := by
  refine ⟨fun h => ?_, fun h => ?_, by decide⟩ <;> simp [cardGt, h]

/-- C5 witness: two Hearts of ranks 3 and 2, then a Heart against a Diamond. -/
theorem C5_gt_spec_witness :
    ((2 ≤ (mkCard 3 .Hearts).rank ∧ (mkCard 3 .Hearts).rank ≤ 14) ∧
     (2 ≤ (mkCard 2 .Hearts).rank ∧ (mkCard 2 .Hearts).rank ≤ 14)) ∧
    (((mkCard 3 .Hearts).suit = (mkCard 2 .Hearts).suit →
       (cardGt (mkCard 3 .Hearts) (mkCard 2 .Hearts) = true ↔
         (mkCard 3 .Hearts).rank > (mkCard 2 .Hearts).rank)) ∧
     ((mkCard 3 .Hearts).suit ≠ (mkCard 2 .Hearts).suit →
       (cardGt (mkCard 3 .Hearts) (mkCard 2 .Hearts) = true ↔
         suit_values (mkCard 3 .Hearts).suit > suit_values (mkCard 2 .Hearts).suit)) ∧
     cardGt (mkCard 4 .Hearts) (mkCard 5 .Diamonds) = true) :=
  ⟨⟨by decide, by decide⟩, C5_gt_spec (mkCard 3 .Hearts) (mkCard 2 .Hearts)
    (by decide) (by decide)⟩

/-- C7: game construction fails exactly when the requested player count
differs from 2, and on success creates the two players "Player 1" and
"Player 2". -/
theorem C7_init_arity (n : Int) (s : Bool) (c : Int) :
    cardGameInit n s c =
      (if n = 2 then
        some { players := [playerInit 1, playerInit 2], num_players := n,
               sort_deck := s, cards_per_player := c }
       else none) ∧
    (playerInit 1).name = "Player 1" ∧ (playerInit 2).name = "Player 2" := by
  refine ⟨?_, rfl, rfl⟩
  by_cases hn : n = 2
  · subst hn
    rfl
  · simp [cardGameInit, GAME_PLAYERS_REQUIRED, hn]

/-- Membership in the rank loop `range(2, 15)`. -/
theorem rankValues_eq :
    rankValues = [2, 3, 4, 5, 6, 7, 8, 9, 10, 11, 12, 13, 14] := by decide

theorem mem_rankValues (x : Int) : x ∈ rankValues ↔ 2 ≤ x ∧ x ≤ 14 := by
  rw [rankValues_eq]
  simp only [List.mem_cons, List.not_mem_nil, or_false]
  constructor
  · intro h
    omega
  · intro h
    omega

/-- Membership in the fresh deck: exactly the cards with rank between 2
and 14, for every suit. -/
theorem mem_deckInit (r : Int) (s : Suit) :
    mkCard r s ∈ deckInit ↔ 2 ≤ r ∧ r ≤ 14 := by
  constructor
  · intro hx
    obtain ⟨su, _, hmem⟩ := List.mem_flatMap.mp hx
    obtain ⟨rv, hrv, heq⟩ := List.mem_map.mp hmem
    have hr : rv = r := congrArg Card.rank heq
    subst hr
    exact (mem_rankValues rv).mp hrv
  · intro hr
    refine List.mem_flatMap.mpr
      ⟨s, ?_, List.mem_map.mpr ⟨r, (mem_rankValues r).mpr hr, rfl⟩⟩
    cases s <;> simp [deckSuits]

/-- C8: a fresh deck holds exactly the 52 distinct cards, one per rank 2..14
and suit, in construction order; dealing removes and returns the front card,
shrinking the deck by one; dealing from an empty deck returns `none` and
leaves the deck empty, so every later deal returns `none` again. -/
theorem C8_deck_and_deal :
    deckInit.length = 52 ∧
    deckInit.Nodup ∧
    (∀ (r : Int) (s : Suit), mkCard r s ∈ deckInit ↔ 2 ≤ r ∧ r ≤ 14) ∧
    (∀ (c : Card) (rest : List Card),
      deal (c :: rest) = (some c, rest) ∧ rest.length + 1 = (c :: rest).length) ∧
    deal [] = (none, ([] : List Card)) :=
  ⟨by decide, deckInit_nodup, mem_deckInit, fun c rest => ⟨rfl, rfl⟩, rfl⟩

/-- The sum of `card_value` over a hand. -/
def handValue (cards : List Card) : Int :=
  (cards.map card_value).sum

/-- C9: a player's `score` equals the sum of `card_value` over the hand: it
holds for a fresh player and `add_card` preserves it. -/
theorem C9_score_invariant (n : Int) (p : Player) (c : Card) :
    score (playerInit n) = handValue (playerInit n).cards ∧
    (score p = handValue p.cards →
      score (add_card p c) = handValue (add_card p c).cards) := by
  constructor
  · rfl
  · intro h
    simp only [score, add_card, handValue, List.map_append, List.sum_append] at *
    simp [h]

/-- C9 witness: a fresh player receiving the 2 of Spades. -/
theorem C9_score_invariant_witness :
    score (playerInit 1) = handValue (playerInit 1).cards ∧
    (score (playerInit 1) = handValue (playerInit 1).cards →
      score (add_card (playerInit 1) (mkCard 2 .Spades)) =
        handValue (add_card (playerInit 1) (mkCard 2 .Spades)).cards) :=
  C9_score_invariant 1 (playerInit 1) (mkCard 2 .Spades)

/-- C10: on equal scores the first player is kept: the loop replaces the
running winner only when strictly exceeded, so `show_winner` returns the
first player's name. -/
theorem C10_tie_keeps_first (g : CardGame) (p1 p2 : Player)
    (hp : g.players = [p1, p2]) (he : score p1 = score p2) :
    show_winner g = some (p1.name, { g with players := [] }) := by
  simp only [score] at he
  simp [show_winner, hp, showWinnerLoop, playerGt, he]

/-- C10 witness: two freshly constructed players, both with score 0. -/
theorem C10_tie_keeps_first_witness :
    ({ players := [playerInit 1, playerInit 2], num_players := 2,
       sort_deck := false, cards_per_player := 3 } : CardGame).players =
        [playerInit 1, playerInit 2] ∧
    score (playerInit 1) = score (playerInit 2) ∧
    show_winner
      { players := [playerInit 1, playerInit 2], num_players := 2,
        sort_deck := false, cards_per_player := 3 } =
      some ((playerInit 1).name,
        { players := [], num_players := 2, sort_deck := false,
          cards_per_player := 3 }) :=
  ⟨rfl, rfl, C10_tie_keeps_first _ (playerInit 1) (playerInit 2) rfl rfl⟩

/-- A game state as produced by `CardGame(2)`: two fresh players. -/
def gameEx : CardGame :=
  { players := [playerInit 1, playerInit 2], num_players := 2,
    sort_deck := false, cards_per_player := 3 }

/-- C1 counterexample: `show_winner` is not side-effect-free on the game
state: on the freshly constructed game it returns a winner but leaves the
players collection empty (every player was popped), whereas the collection
held two players before the call. -/
theorem C1_claim_counterexample :
    cardGameInit 2 false 3 = some gameEx ∧
    (show_winner gameEx).map (fun r => r.2.players) = some [] ∧
    gameEx.players ≠ [] :=
  ⟨rfl, rfl, by decide⟩

/-- C1 (amended): on a two-player game with distinct scores, `show_winner`
returns the name of the player with the strictly higher score and leaves
every other game field and both player values untouched, but it is not
side-effect-free on the game state: it pops all entries of the players
collection, leaving it empty. -/
theorem C1_show_winner_two_players (g : CardGame) (p1 p2 : Player)
    (hp : g.players = [p1, p2]) (_hne : score p1 ≠ score p2) :
    show_winner g =
      some ((if score p2 > score p1 then p2 else p1).name,
        { g with players := [] }) := by
  simp only [score]
  by_cases h : p2.player_score > p1.player_score
  · simp [show_winner, hp, showWinnerLoop, playerGt, h]
  · simp [show_winner, hp, showWinnerLoop, playerGt, h]

/-- C1 witness: Player 2 holds the 2 of Spades (score 2) against the fresh
Player 1 (score 0). -/
theorem C1_show_winner_two_players_witness :
    (({ players := [playerInit 1, add_card (playerInit 2) (mkCard 2 .Spades)],
        num_players := 2, sort_deck := false, cards_per_player := 3 } :
          CardGame).players =
        [playerInit 1, add_card (playerInit 2) (mkCard 2 .Spades)] ∧
      score (playerInit 1) ≠ score (add_card (playerInit 2) (mkCard 2 .Spades))) ∧
    show_winner
      { players := [playerInit 1, add_card (playerInit 2) (mkCard 2 .Spades)],
        num_players := 2, sort_deck := false, cards_per_player := 3 } =
      some ((if score (add_card (playerInit 2) (mkCard 2 .Spades)) >
                score (playerInit 1)
             then add_card (playerInit 2) (mkCard 2 .Spades)
             else playerInit 1).name,
        { players := [], num_players := 2, sort_deck := false,
          cards_per_player := 3 }) :=
  ⟨⟨rfl, by decide⟩,
    C1_show_winner_two_players _ _ _ rfl (by decide)⟩

/-- With the sort flag set, playing the game after an arbitrary shuffle deals
from the sorted deck, which is the fresh deck in construction order. -/
theorem play_card_game_sorted (g : CardGame) (hg : g.sort_deck = true)
    (l : List Card) (h : l ~ deckInit) :
    play_card_game g l =
      { g with
        players :=
          (dealLoop (g.num_players * g.cards_per_player).toNat g.players 0
            deckInit g.num_players.toNat).1 } := by
  simp [play_card_game, hg, deckSort_eq_of_perm l h]

/-- C4: in a game built as `CardGame(2, sort_deck=True, cards_per_player=3)`,
whatever the shuffle produced, Player 1 is dealt the Spades of ranks 2, 4, 6
(score 12), Player 2 the Spades of ranks 3, 5, 7 (score 15), and the winner
is "Player 2". -/
theorem C4_sorted_game (l : List Card) (h : l ~ deckInit) :
    ∃ g, cardGameInit 2 true 3 = some g ∧
      (play_card_game g l).players.map Player.cards =
        [[mkCard 2 .Spades, mkCard 4 .Spades, mkCard 6 .Spades],
         [mkCard 3 .Spades, mkCard 5 .Spades, mkCard 7 .Spades]] ∧
      (play_card_game g l).players.map score = [12, 15] ∧
      (show_winner (play_card_game g l)).map Prod.fst = some "Player 2" := by
  refine ⟨_, rfl, ?_, ?_, ?_⟩ <;> rw [play_card_game_sorted _ rfl l h] <;> decide

/-- C4 witness: the identity shuffle. -/
theorem C4_sorted_game_witness :
    (deckInit ~ deckInit) ∧
    (∃ g, cardGameInit 2 true 3 = some g ∧
      (play_card_game g deckInit).players.map Player.cards =
        [[mkCard 2 .Spades, mkCard 4 .Spades, mkCard 6 .Spades],
         [mkCard 3 .Spades, mkCard 5 .Spades, mkCard 7 .Spades]] ∧
      (play_card_game g deckInit).players.map score = [12, 15] ∧
      (show_winner (play_card_game g deckInit)).map Prod.fst =
        some "Player 2") :=
  ⟨List.Perm.refl _, C4_sorted_game deckInit (List.Perm.refl _)⟩

/-- C6: sorting any arrangement of the deck orders it by ascending suit
weight, then ascending rank within each suit group, and sorting is
idempotent. -/
theorem C6_sort_order_idempotent (l : List Card) (h : l ~ deckInit) :
    (deckSort l).Pairwise (fun a b =>
      suit_values a.suit < suit_values b.suit ∨
      (a.suit = b.suit ∧ a.rank ≤ b.rank)) ∧
    deckSort (deckSort l) = deckSort l := by
  have hs : deckSort l = deckInit := deckSort_eq_of_perm l h
  rw [hs]
  exact ⟨by decide, deckSort_eq_of_perm deckInit (List.Perm.refl _)⟩

/-- C6 witness: the deck in construction order. -/
theorem C6_sort_order_idempotent_witness :
    (deckInit ~ deckInit) ∧
    ((deckSort deckInit).Pairwise (fun a b =>
        suit_values a.suit < suit_values b.suit ∨
        (a.suit = b.suit ∧ a.rank ≤ b.rank)) ∧
      deckSort (deckSort deckInit) = deckSort deckInit) :=
  ⟨List.Perm.refl _, C6_sort_order_idempotent deckInit (List.Perm.refl _)⟩
